import Mathlib

/-!
Verification development for the diagnostic reporting layer of armake2
(`src/error.rs`): the warning throttle, the parse-error caret renderer,
the line-origin resolver, and the error-context helpers.

The Rust code is shallowly embedded: the process-wide
`WARNING_STATE: Lazy<Mutex<WarningState>>` becomes an explicit
`WarningState` value threaded through the functions, `HashMap<String, u32>`
becomes an association list with unique-key updates, printing to stderr
becomes returning the string that would be printed, and `u32` counters
become `Nat` (they only ever grow by one from 0 and are capped by `max`,
so no wrap-around is reachable). Terminal colouring (`colored::Colorize`)
is dropped: it only wraps substrings in ANSI escapes when stderr is a tty.
-/

set_option autoImplicit false

namespace Armake2.Error

/-- `u32::MAX`, the cap installed by `init_warnings` in verbose mode. -/
def U32MAX : Nat := 4294967295

/-- First-match lookup in an association list, modelling
`HashMap::get` / `HashMap::entry` key search. -/
def lookupPair : List (String × Nat) → String → Option Nat
  | [], _ => Option.none
  | (k, v) :: rest, c => if k = c then some v else lookupPair rest c

/-- The counter value read through `entry(name).or_insert(0)`:
the stored count, or 0 when the key is absent. -/
def getCount (raised : List (String × Nat)) (c : String) : Nat :=
  (lookupPair raised c).getD 0

/-- Store a value under a key: update the first occurrence in place, or
append a fresh entry, as a `HashMap` insert does. -/
def setCount : List (String × Nat) → String → Nat → List (String × Nat)
  | [], c, v => [(c, v)]
  | (k, w) :: rest, c, v =>
    if k = c then (c, v) :: rest else (k, w) :: setCount rest c v

/-- `struct WarningState` from `error.rs`. -/
structure WarningState where
  max : Nat
  muted : List String
  raised : List (String × Nat)

/-- The lazily-initialised default of `WARNING_STATE`:
`max = 10`, nothing muted, no counters. -/
def initialWarningState : WarningState :=
  { max := 10, muted := [], raised := [] }

/-- `print_warning_message`: the line written to stderr for one warning
(colour codes omitted). -/
def print_warning_message (msg : String) (name : Option String)
    (location : Option String × Option Nat) : String :=
  let loc_str :=
    match location with
    | (some f, some l) => "In file " ++ f ++ ":" ++ toString l ++ ": "
    | (some f, Option.none) => "In file " ++ f ++ ": "
    | (Option.none, some l) => "In line " ++ toString l ++ ": "
    | (Option.none, Option.none) => ""
  let name_str :=
    match name with
    | some n => " [" ++ n ++ "]"
    | Option.none => ""
  loc_str ++ "warning" ++ ": " ++ msg ++ name_str

/-- `warning(msg, name, location)`: returns the updated state and the
message printed, if any. Mirrors the source exactly: a muted category
returns untouched; otherwise the counter is read through
`entry(..).or_insert(0)` (which materialises the entry), and when the
pre-read count already reached `max` the function returns WITHOUT
incrementing; otherwise it increments and prints. -/
def warning (s : WarningState) (msg : String) (name : Option String)
    (location : Option String × Option Nat) : WarningState × Option String :=
  match name with
  | some name_str =>
    if s.muted.contains name_str then (s, Option.none)
    else
      let max_warnings := s.max
      let cnt := getCount s.raised name_str
      let raised1 := setCount s.raised name_str cnt
      if max_warnings ≤ cnt then
        ({ s with raised := raised1 }, Option.none)
      else
        ({ s with raised := setCount raised1 name_str (cnt + 1) },
         some (print_warning_message msg name location))
  | Option.none => (s, some (print_warning_message msg name location))

/-- `N` successive `warning` calls with the same arguments; returns the
final state and how many messages were printed. -/
def warnN (s : WarningState) (msg : String) (name : Option String)
    (location : Option String × Option Nat) : Nat → WarningState × Nat
  | 0 => (s, 0)
  | Nat.succ n =>
    let r := warning s msg name location
    let rest := warnN r.1 msg name location n
    (rest.1, (if r.2.isSome then 1 else 0) + rest.2)

/-- `warning_suppressed(name)`. -/
def warning_suppressed (s : WarningState) (name : Option String) : Bool :=
  match name with
  | Option.none => false
  | some n =>
    if s.muted.contains n then true
    else
      match lookupPair s.raised n with
      | some raised => s.max ≤ raised
      | Option.none => false

/-- The loop body of `print_warning_summary`: the `(name, excess)` pairs
that survive the mute filter and the `raised > max` test, in `raised`
order. -/
def summaryAux (mx : Nat) (muted : List String) :
    List (String × Nat) → List (String × Nat)
  | [] => []
  | (name, raised) :: rest =>
    if muted.contains name then summaryAux mx muted rest
    else if mx < raised then (name, raised - mx) :: summaryAux mx muted rest
    else summaryAux mx muted rest

/-- The categories reported by `print_warning_summary`, with their excess
counts. -/
def summary_entries (s : WarningState) : List (String × Nat) :=
  summaryAux s.max s.muted s.raised

/-- The messages printed by `print_warning_summary` (singular/plural
phrasing as in the source). -/
def print_warning_summary (s : WarningState) : List String :=
  (summary_entries s).map fun p =>
    if 1 < p.2 then
      toString p.2 ++ " warnings of type \"" ++ p.1 ++
        "\" were suppressed to prevent spam. Use \"-w " ++ p.1 ++
        "\" to disable these warnings entirely."
    else
      toString p.2 ++ " warning of type \"" ++ p.1 ++
        "\" was suppressed to prevent spam. Use \"-w " ++ p.1 ++
        "\" to disable these warnings entirely."

/-- The summary line (excess count) reported for a single category, if
any. -/
def summaryLineFor (s : WarningState) (c : String) : Option Nat :=
  lookupPair (summary_entries s) c

/-- `init_warnings(muted, verbose)`: overwrites `muted`; raises `max` to
`u32::MAX` when verbose, and leaves `max` untouched otherwise. -/
def init_warnings (s : WarningState) (muted : List String) (verbose : Bool) :
    WarningState :=
  let s1 := { s with muted := muted }
  if verbose then { s1 with max := U32MAX } else s1

/-- The `error!` macro: an `io::Error` carrying a formatted message; we
model the error as its message string. `prepend_error` on a `Result`. -/
def prepend_error {α : Type} (r : Except String α) (msg : String) :
    Except String α :=
  match r with
  | Except.ok t => Except.ok t
  | Except.error e => Except.error (msg ++ "\n" ++ e)

/-! ### Parse-error formatting (`format_parse_error` and the two
`format_error` impls) -/

/-- Rust `char::is_whitespace`: the Unicode `White_Space` property —
U+0009..U+000D, U+0020, U+0085, U+00A0, U+1680, U+2000..U+200A, U+2028,
U+2029, U+202F, U+205F, U+3000. -/
def rustIsWhitespace (c : Char) : Bool :=
  let n := c.toNat
  (0x0009 ≤ n && n ≤ 0x000D) || n == 0x0020 || n == 0x0085 ||
    n == 0x00A0 || n == 0x1680 || (0x2000 ≤ n && n ≤ 0x200A) ||
    n == 0x2028 || n == 0x2029 || n == 0x202F || n == 0x205F ||
    n == 0x3000

/-- Rust `str::trim_start`: drop leading Unicode-whitespace
characters. -/
def trim_start (line : String) : String :=
  String.mk (line.data.dropWhile rustIsWhitespace)

/-- The display indentation removed by trimming:
`line.len() - trimmed.len()` in the source, where Rust `str::len` is the
UTF-8 byte length. -/
def stripped (line : String) : Nat :=
  line.utf8ByteSize - (trim_start line).utf8ByteSize

/-- The run of spaces placed before the caret:
`" ".repeat(column_number - 1 - (line.len() - trimmed.len()))`. -/
def caretPadding (line : String) (column_number : Nat) : List Char :=
  List.replicate (column_number - 1 - stripped line) ' '

/-- The exact integer value of the caret-offset expression
`column_number - 1 - stripped`, before `usize` truncation: negative
exactly when the `usize` subtraction in the source would underflow. -/
def caretOffsetInt (line : String) (column_number : Nat) : Int :=
  (column_number : Int) - 1 - (stripped line : Int)

/-- The offending token shown in quotes:
`line.chars().nth(column_number - 1)`, or the literal `\n` when the line
is too short. -/
def offendingToken (line : String) (column_number : Nat) : String :=
  match line.data.get? (column_number - 1) with
  | some ch => String.mk [ch]
  | Option.none => "\\n"

/-- `format_parse_error` (colour codes on the caret omitted). -/
def format_parse_error (line : String) (file : String) (line_number : Nat)
    (column_number : Nat) (expected : String) : String :=
  let trimmed := trim_start line
  "In line " ++ file ++ toString line_number ++ ":\n\n  " ++ trimmed ++
    "\n  " ++ String.mk (caretPadding line column_number) ++ "^" ++
    "\n\nUnexpected token \"" ++ offendingToken line column_number ++
    "\", expected: " ++ expected

/-- `t` is a suffix of `s` (character-list comparison); used to state
what a rendered diagnostic ends with. -/
def strEndsWith (s t : String) : Bool :=
  t.data.isSuffixOf s.data

/-- Split a character list at newline characters (every `\n` ends a
piece). -/
def splitNewlines : List Char → List Char → List (List Char)
  | [], acc => [acc.reverse]
  | c :: rest, acc =>
    if c = '\n' then acc.reverse :: splitNewlines rest []
    else splitNewlines rest (c :: acc)

/-- Drop one trailing `\r`, as Rust does on a line that ended in
`\r\n`. -/
def stripCR (l : List Char) : List Char :=
  if l.getLast? = some '\r' then l.dropLast else l

/-- Assemble the pieces `splitNewlines` produced: every piece except the
last was terminated by a `\n` and gets a trailing `\r` stripped; the
final piece is the unterminated remainder — kept verbatim when
non-empty, and not a line at all when empty (the input ended at a
newline or was empty). -/
def rustLinesAux : List (List Char) → List String
  | [] => []
  | [last] => if last = [] then [] else [String.mk last]
  | piece :: rest => String.mk (stripCR piece) :: rustLinesAux rest

/-- Rust `str::lines()`: split at `\n`, treating `\r\n` as a single
terminator, with the final terminator optional. -/
def strLines (input : String) : List String :=
  rustLinesAux (splitNewlines input.data [])

/-- `input.lines().nth(line - 1).unwrap_or("")`: the source line a
1-based parse-failure line number selects, or `""` past the end. -/
def fetchLine (input : String) (line : Nat) : String :=
  match (strLines input).get? (line - 1) with
  | some l => l
  | Option.none => ""

/-- The `file_origin` prefix: `"<path>:"` or empty. -/
def fileOriginStr (origin : Option String) : String :=
  match origin with
  | some path => path ++ ":"
  | Option.none => ""

/-- The parse failure location (`peg::str::LineCol`, 1-based). -/
structure LineCol where
  line : Nat
  column : Nat

/-- The part of `PreprocessInfo` this module reads: the line-origin
table, pairs of (original line number, optional original file path). -/
structure PreprocessInfo where
  line_origins : List (Nat × Option String)

/-- The clamped table lookup
`line_origins[min(pe.location.line, line_origins.len()) - 1]` performed
(twice, with the same index) by `ConfigParseErrorExt::format_error`;
`Option.none` when the `Vec` index would panic. -/
def resolveOrigin (line_origins : List (Nat × Option String)) (line : Nat) :
    Option (Nat × Option String) :=
  line_origins.get? (min line line_origins.length - 1)

/-- The `Err` branch of `PreprocessParseErrorExt::format_error` (the `Ok`
branch passes the value through unchanged). -/
def preprocessFormatError (origin : Option String) (input : String)
    (pe : LineCol) (expected : String) : String :=
  format_parse_error (fetchLine input pe.line) (fileOriginStr origin)
    (pe.line - 1) pe.column expected

/-- The `Err` branch of `ConfigParseErrorExt::format_error`:
`Option.none` models the panic on an out-of-bounds `line_origins`
index. -/
def configFormatError (info : PreprocessInfo) (input : String)
    (pe : LineCol) (expected : String) : Option String :=
  match resolveOrigin info.line_origins pe.line with
  | some origin =>
    some (format_parse_error (fetchLine input pe.line)
      (fileOriginStr origin.2) origin.1 pe.column expected)
  | Option.none => Option.none

/-! ### Association-list helper lemmas -/

lemma not_mem_of_lookupPair_none (l : List (String × Nat)) (c : String) :
    lookupPair l c = Option.none → ∀ v, (c, v) ∉ l := by
  induction l with
  | nil =>
    intro _ v hv
    simp at hv
  | cons p rest ih =>
    obtain ⟨k, w⟩ := p
    intro h v hv
    by_cases hk : k = c
    · subst hk
      simp [lookupPair] at h
    · simp only [lookupPair, if_neg hk] at h
      rcases List.mem_cons.mp hv with he | hm
      · exact hk (congrArg Prod.fst he).symm
      · exact ih h v hm

lemma lookupPair_mem (l : List (String × Nat)) (c : String) (v : Nat)
    (h : lookupPair l c = some v) : (c, v) ∈ l := by
  induction l with
  | nil => simp [lookupPair] at h
  | cons p rest ih =>
    obtain ⟨k, w⟩ := p
    by_cases hk : k = c
    · subst hk
      simp [lookupPair] at h
      simp [h]
    · simp [lookupPair, hk] at h
      exact List.mem_cons_of_mem _ (ih h)

lemma getCount_le (l : List (String × Nat)) (c : String) (mx : Nat)
    (h : ∀ v, (c, v) ∈ l → v ≤ mx) : getCount l c ≤ mx := by
  unfold getCount
  cases hl : lookupPair l c with
  | none => simp
  | some v => simpa using h v (lookupPair_mem l c v hl)

lemma getCount_setCount (l : List (String × Nat)) (c : String) (w : Nat) :
    getCount (setCount l c w) c = w := by
  induction l with
  | nil => simp [setCount, getCount, lookupPair]
  | cons p rest ih =>
    obtain ⟨k, v⟩ := p
    by_cases hk : k = c
    · simp [setCount, hk, getCount, lookupPair]
    · simpa [setCount, hk, getCount, lookupPair] using ih

lemma setCount_setCount (l : List (String × Nat)) (c : String) (v w : Nat) :
    setCount (setCount l c v) c w = setCount l c w := by
  induction l with
  | nil => simp [setCount]
  | cons p rest ih =>
    obtain ⟨k, u⟩ := p
    by_cases hk : k = c
    · simp [setCount, hk]
    · simp [setCount, hk, ih]

lemma mem_setCount (l : List (String × Nat)) (c cq : String) (v w : Nat)
    (h : (cq, v) ∈ setCount l c w) : (cq, v) ∈ l ∨ (cq = c ∧ v = w) := by
  induction l with
  | nil =>
    simp [setCount] at h
    exact Or.inr h
  | cons p rest ih =>
    obtain ⟨k, u⟩ := p
    by_cases hk : k = c
    · subst hk
      simp [setCount] at h
      rcases h with h | h
      · exact Or.inr h
      · exact Or.inl (List.mem_cons_of_mem _ h)
    · simp [setCount, hk] at h
      rcases h with h | h
      · exact Or.inl (by simp [h])
      · rcases ih h with h2 | h2
        · exact Or.inl (List.mem_cons_of_mem _ h2)
        · exact Or.inr h2

lemma summaryAux_lookup_none_of_le (mx : Nat) (muted : List String)
    (l : List (String × Nat)) (c : String)
    (h : ∀ v, (c, v) ∈ l → v ≤ mx) :
    lookupPair (summaryAux mx muted l) c = Option.none := by
  induction l with
  | nil => simp [summaryAux, lookupPair]
  | cons p rest ih =>
    obtain ⟨k, v⟩ := p
    have hrest : ∀ u, (c, u) ∈ rest → u ≤ mx := fun u hu =>
      h u (List.mem_cons_of_mem _ hu)
    by_cases hmu : k ∈ muted
    · simpa [summaryAux, hmu] using ih hrest
    · by_cases hv : mx < v
      · have hk : ¬ (k = c) := by
          intro hk
          subst hk
          exact absurd (h v (by simp)) (by omega)
        simpa [summaryAux, hmu, hv, lookupPair, hk] using ih hrest
      · simpa [summaryAux, hmu, hv] using ih hrest

lemma summaryAux_lookup_none_of_muted (mx : Nat) (muted : List String)
    (l : List (String × Nat)) (c : String)
    (h : muted.contains c = true) :
    lookupPair (summaryAux mx muted l) c = Option.none := by
  have hc : c ∈ muted := by simpa using h
  induction l with
  | nil => simp [summaryAux, lookupPair]
  | cons p rest ih =>
    obtain ⟨k, v⟩ := p
    by_cases hk : k = c
    · subst hk
      simp [summaryAux, hc, ih]
    · by_cases hmu : k ∈ muted
      · simpa [summaryAux, hmu] using ih
      · by_cases hv : mx < v
        · simpa [summaryAux, hmu, hv, lookupPair, hk] using ih
        · simpa [summaryAux, hmu, hv] using ih

/-! ### Behaviour of `warning` and repeated calls -/

lemma warning_muted (s : WarningState) (msg c : String)
    (loc : Option String × Option Nat) (hm : c ∈ s.muted) :
    warning s msg (some c) loc = (s, Option.none) := by
  simp [warning, hm]

lemma warning_not_muted_ge (s : WarningState) (msg c : String)
    (loc : Option String × Option Nat)
    (hm : ¬ (c ∈ s.muted)) (h : s.max ≤ getCount s.raised c) :
    warning s msg (some c) loc
      = ({ s with raised := setCount s.raised c (getCount s.raised c) },
         Option.none) := by
  simp [warning, hm, h]

lemma warning_not_muted_lt (s : WarningState) (msg c : String)
    (loc : Option String × Option Nat)
    (hm : ¬ (c ∈ s.muted)) (h : getCount s.raised c < s.max) :
    warning s msg (some c) loc
      = ({ s with raised := setCount s.raised c (getCount s.raised c + 1) },
         some (print_warning_message msg (some c) loc)) := by
  simp [warning, hm, Nat.not_le.mpr h, setCount_setCount]

lemma warnN_muted (msg c : String) (loc : Option String × Option Nat)
    (N : Nat) : ∀ s : WarningState, c ∈ s.muted →
    warnN s msg (some c) loc N = (s, 0) := by
  induction N with
  | zero =>
    intro s _
    rfl
  | succ n ih =>
    intro s hm
    simp only [warnN, warning_muted s msg c loc hm]
    simp [ih s hm]

/-- The full characterisation of `N` non-muted `warning` calls for one
category: `max` and `muted` are untouched, the counter climbs to
`min (start + N, max)`, exactly `min N (max - start)` messages print, and
every stored count for the category stays at or below `max`. -/
lemma warnN_not_muted (msg c : String) (loc : Option String × Option Nat)
    (N : Nat) :
    ∀ s : WarningState, ¬ (c ∈ s.muted) →
    (∀ v, (c, v) ∈ s.raised → v ≤ s.max) →
    (warnN s msg (some c) loc N).1.max = s.max ∧
    (warnN s msg (some c) loc N).1.muted = s.muted ∧
    getCount (warnN s msg (some c) loc N).1.raised c
      = min (getCount s.raised c + N) s.max ∧
    (warnN s msg (some c) loc N).2 = min N (s.max - getCount s.raised c) ∧
    (∀ v, (c, v) ∈ (warnN s msg (some c) loc N).1.raised → v ≤ s.max) := by
  induction N with
  | zero =>
    intro s hm hinv
    have hk : getCount s.raised c ≤ s.max := getCount_le _ _ _ hinv
    refine ⟨rfl, rfl, ?_, ?_, hinv⟩
    · show getCount s.raised c = min (getCount s.raised c + 0) s.max
      omega
    · show 0 = min 0 (s.max - getCount s.raised c)
      omega
  | succ n ih =>
    intro s hm hinv
    have hk : getCount s.raised c ≤ s.max := getCount_le _ _ _ hinv
    by_cases h : s.max ≤ getCount s.raised c
    · have hstep := warning_not_muted_ge s msg c loc hm h
      have h1inv : ∀ v,
          (c, v) ∈ setCount s.raised c (getCount s.raised c) → v ≤ s.max := by
        intro v hv
        rcases mem_setCount _ _ _ _ _ hv with hv2 | hv2
        · exact hinv v hv2
        · omega
      have ihs := ih { s with raised := setCount s.raised c (getCount s.raised c) }
        hm h1inv
      rcases ihs with ⟨ih1, ih2, ih3, ih4, ih5⟩
      rw [getCount_setCount] at ih3 ih4
      dsimp only at ih3 ih4
      simp only [warnN, hstep]
      refine ⟨ih1, ih2, ?_, ?_, ih5⟩
      · rw [ih3]
        omega
      · simp only [Option.isSome_none, Bool.false_eq_true, if_false, ih4]
        omega
    · have hlt : getCount s.raised c < s.max := Nat.lt_of_not_le h
      have hstep := warning_not_muted_lt s msg c loc hm hlt
      have h1inv : ∀ v,
          (c, v) ∈ setCount s.raised c (getCount s.raised c + 1) →
          v ≤ s.max := by
        intro v hv
        rcases mem_setCount _ _ _ _ _ hv with hv2 | hv2
        · exact hinv v hv2
        · omega
      have ihs := ih
        { s with raised := setCount s.raised c (getCount s.raised c + 1) }
        hm h1inv
      rcases ihs with ⟨ih1, ih2, ih3, ih4, ih5⟩
      rw [getCount_setCount] at ih3 ih4
      dsimp only at ih3 ih4
      simp only [warnN, hstep]
      refine ⟨ih1, ih2, ?_, ?_, ih5⟩
      · rw [ih3]
        omega
      · simp only [Option.isSome_some, if_true, ih4]
        omega

/-! ### Claim theorems: warning throttle and error context -/

/-- C1: the claim says that past the cap every further `warning` call
still increments `raised[c]`, so that after `N > max` calls the summary
reports `N - max` suppressed warnings. The code instead returns before
the increment once the counter has reached `max`: after 11 calls with
the default `max = 10` the counter sticks at 10 (not 11) and
`print_warning_summary` prints nothing instead of reporting 1
suppressed warning — the summary's `raised > max` branch is
unreachable. -/
theorem C1_counter_capped_summary_empty :
    getCount (warnN initialWarningState "m" (some "w")
      (Option.none, Option.none) 11).1.raised "w" = 10 ∧
    summaryLineFor (warnN initialWarningState "m" (some "w")
      (Option.none, Option.none) 11).1 "w" = Option.none ∧
    print_warning_summary (warnN initialWarningState "m" (some "w")
      (Option.none, Option.none) 11).1 = [] := by
  decide

/-- C2: for a category that is not muted and has not been raised yet,
`N` `warning` calls print exactly `min N max` messages, and when
`N ≤ max` the subsequent summary has no line for the category. -/
theorem C2_throttle_min_printed (s : WarningState) (c msg : String)
    (loc : Option String × Option Nat) (N : Nat)
    (hm : ¬ (c ∈ s.muted))
    (h0 : lookupPair s.raised c = Option.none) :
    (warnN s msg (some c) loc N).2 = min N s.max ∧
    (N ≤ s.max →
      summaryLineFor (warnN s msg (some c) loc N).1 c = Option.none) := by
  have hinv : ∀ v, (c, v) ∈ s.raised → v ≤ s.max := fun v hv =>
    absurd hv (not_mem_of_lookupPair_none s.raised c h0 v)
  have h0c : getCount s.raised c = 0 := by
    unfold getCount
    rw [h0]
    rfl
  obtain ⟨h1, h2, _, h4, h5⟩ := warnN_not_muted msg c loc N s hm hinv
  constructor
  · rw [h4, h0c]
    omega
  · intro _
    unfold summaryLineFor summary_entries
    rw [h1, h2]
    exact summaryAux_lookup_none_of_le s.max s.muted _ c h5

/-- Witness for C2 at a concrete input: 3 calls on a fresh category with
the default cap of 10 print 3 messages and leave no summary line. -/
theorem C2_witness :
    (warnN initialWarningState "m" (some "dup")
      (Option.none, Option.none) 3).2 = min 3 initialWarningState.max ∧
    (3 ≤ initialWarningState.max →
      summaryLineFor (warnN initialWarningState "m" (some "dup")
        (Option.none, Option.none) 3).1 "dup" = Option.none) :=
  C2_throttle_min_printed initialWarningState "dup" "m"
    (Option.none, Option.none) 3 (by decide) (by rfl)

/-- C6 counterexample: the claim says that after `init_warnings(m1, true)`
followed by `init_warnings(m2, false)` the cap is back to its non-verbose
value (10); in the code a non-verbose call never writes `max`, so the cap
stays at `u32::MAX` and the claimed conjunction fails. -/
theorem C6_counterexample :
    ¬ ((init_warnings (init_warnings initialWarningState ["a"] true)
          ["b"] false).muted = ["b"] ∧
       (init_warnings (init_warnings initialWarningState ["a"] true)
          ["b"] false).max = 10) := by
  decide

/-- C6 amended: later `init_warnings` calls overwrite the muted set
(last-write-wins), but `max` is only ever written by a verbose call:
after a verbose call followed by a non-verbose one, the muted set is the
later one and the cap remains `u32::MAX`. -/
theorem C6_last_write_wins_muted_only (s : WarningState)
    (m1 m2 : List String) :
    (init_warnings (init_warnings s m1 true) m2 false).muted = m2 ∧
    (init_warnings (init_warnings s m1 true) m2 false).max = U32MAX :=
  ⟨rfl, rfl⟩

/-- C7: `prepend_error` passes a success through unchanged, and turns an
error with text `e` into one with text `msg`, a newline, then `e`. -/
theorem C7_prepend_error (α : Type) (t : α) (msg e : String) :
    prepend_error (Except.ok t) msg = (Except.ok t : Except String α) ∧
    prepend_error (Except.error e : Except String α) msg
      = Except.error (msg ++ "\n" ++ e) :=
  ⟨rfl, rfl⟩

/-- C8: for a muted category, any number of `warning` calls prints
nothing, leaves the state untouched, and the summary never has a line
for the category. -/
theorem C8_muted_silent (s : WarningState) (c msg : String)
    (loc : Option String × Option Nat) (N : Nat)
    (hm : c ∈ s.muted) :
    (warnN s msg (some c) loc N).2 = 0 ∧
    (warnN s msg (some c) loc N).1 = s ∧
    summaryLineFor (warnN s msg (some c) loc N).1 c = Option.none := by
  have h := warnN_muted msg c loc N s hm
  refine ⟨by rw [h], by rw [h], ?_⟩
  rw [h]
  unfold summaryLineFor summary_entries
  exact summaryAux_lookup_none_of_muted s.max s.muted s.raised c
    (by simpa using hm)

/-- Witness for C8 at a concrete input: with category `"x"` muted, two
calls print nothing, change nothing, and leave no summary line. -/
theorem C8_witness :
    (warnN (init_warnings initialWarningState ["x"] false) "m" (some "x")
      (Option.none, Option.none) 2).2 = 0 ∧
    (warnN (init_warnings initialWarningState ["x"] false) "m" (some "x")
      (Option.none, Option.none) 2).1
      = init_warnings initialWarningState ["x"] false ∧
    summaryLineFor (warnN (init_warnings initialWarningState ["x"] false)
      "m" (some "x") (Option.none, Option.none) 2).1 "x" = Option.none :=
  C8_muted_silent _ "x" "m" (Option.none, Option.none) 2 (by decide)

/-! ### Claim theorems: diagnostic formatting -/

lemma resolveOrigin_isSome (t : List (Nat × Option String)) (L : Nat)
    (ht : t ≠ []) (_hL : 1 ≤ L) : (resolveOrigin t L).isSome = true := by
  have hpos : 0 < t.length := List.length_pos.mpr ht
  have hidx : min L t.length - 1 < t.length := by omega
  unfold resolveOrigin
  rw [List.get?_eq_get hidx]
  rfl

/-- C3: for a non-empty line-origin table of length `K` and a 1-based
failure line `L ≥ 1`, the clamped lookup succeeds and selects entry
`L - 1` when `L ≤ K` and entry `K - 1` when `L > K`. -/
theorem C3_resolve_clamps (t : List (Nat × Option String)) (L : Nat)
    (ht : t ≠ []) (hL : 1 ≤ L) :
    (resolveOrigin t L).isSome = true ∧
    (L ≤ t.length → resolveOrigin t L = t.get? (L - 1)) ∧
    (t.length < L → resolveOrigin t L = t.get? (t.length - 1)) := by
  refine ⟨resolveOrigin_isSome t L ht hL, ?_, ?_⟩
  · intro h
    unfold resolveOrigin
    rw [Nat.min_eq_left h]
  · intro h
    unfold resolveOrigin
    rw [Nat.min_eq_right (Nat.le_of_lt h)]

/-- Witness for C3 at a concrete input: a 2-entry table with failure
line 9 resolves to the last entry. -/
theorem C3_witness :
    resolveOrigin [(5, Option.none), (7, some "f")] 9
      = some (7, some "f") := by
  have h := C3_resolve_clamps [(5, Option.none), (7, some "f")] 9
    (by decide) (by decide)
  have h2 := h.2.2 (by decide)
  rw [h2]
  rfl

/-- C4: on the input line `"    let x = ;"` at 1-based column 13 with
expected description `"an expression"`, the renderer shows the trimmed
line `"let x = ;"`, places exactly 8 spaces before the caret, picks `";"`
as the offending token, and the message ends with
`Unexpected token ";", expected: an expression`. -/
theorem C4_concrete_render :
    trim_start "    let x = ;" = "let x = ;" ∧
    (caretPadding "    let x = ;" 13).length = 8 ∧
    offendingToken "    let x = ;" 13 = ";" ∧
    strEndsWith (format_parse_error "    let x = ;" "" 3 13 "an expression")
      "Unexpected token \";\", expected: an expression" = true := by
  decide

/-- C5: when the 1-based column exceeds the line's length, the offending
token renders as the literal two-character sequence `\n`. -/
theorem C5_end_of_line (line : String) (C : Nat) (h : line.length < C) :
    offendingToken line C = "\\n" := by
  unfold offendingToken
  have hlen : line.data.length ≤ C - 1 := by
    have hd : line.length = line.data.length := rfl
    omega
  rw [List.get?_eq_none.mpr hlen]

/-- Witness for C5 at a concrete input: column 3 on the 2-character line
`"ab"`. -/
theorem C5_witness :
    ("ab" : String).length < 3 ∧ offendingToken "ab" 3 = "\\n" :=
  ⟨by decide, C5_end_of_line "ab" 3 (by decide)⟩

/-- C9: when the 1-based column `C` satisfies `C ≥ 1 + stripped`, the
`usize` subtraction `C - 1 - stripped` agrees with its exact integer
value (no underflow) and the caret padding is exactly that many spaces;
when `C < 1 + stripped`, the exact value is negative, i.e. the
subtraction underflows. -/
theorem C9_caret_offset (line : String) (C : Nat) :
    (1 + stripped line ≤ C →
      ((caretPadding line C).length : Int) = caretOffsetInt line C ∧
      ∀ ch ∈ caretPadding line C, ch = ' ') ∧
    (C < 1 + stripped line → caretOffsetInt line C < 0) := by
  constructor
  · intro h
    constructor
    · simp only [caretPadding, List.length_replicate, caretOffsetInt]
      omega
    · intro ch hch
      exact List.eq_of_mem_replicate hch
  · intro h
    unfold caretOffsetInt
    omega

/-- Witness for C9 at concrete inputs: column 4 on `"  ab"` (2 stripped
characters) satisfies the precondition and gives offset 1; column 1 on
`"  a"` violates it and the exact offset is negative. -/
theorem C9_witness :
    (1 + stripped "  ab" ≤ 4 ∧
      ((caretPadding "  ab" 4).length : Int) = caretOffsetInt "  ab" 4) ∧
    (1 < 1 + stripped "  a" ∧ caretOffsetInt "  a" 1 < 0) :=
  ⟨⟨by decide, ((C9_caret_offset "  ab" 4).1 (by decide)).1⟩,
   ⟨by decide, (C9_caret_offset "  a" 1).2 (by decide)⟩⟩

/-- C10: when the failure's 1-based line number exceeds the number of
lines of the supplied input, both formatting variants use the empty
string as the offending source line and still return a formatted
diagnostic (for the preprocessed variant, provided the line-origin table
is non-empty as the data-model invariant requires). -/
theorem C10_line_fallback (origin : Option String) (info : PreprocessInfo)
    (input : String) (pe : LineCol) (expected : String)
    (hL : 1 ≤ pe.line) (hlen : (strLines input).length < pe.line)
    (ht : info.line_origins ≠ []) :
    fetchLine input pe.line = "" ∧
    preprocessFormatError origin input pe expected
      = format_parse_error "" (fileOriginStr origin) (pe.line - 1)
          pe.column expected ∧
    (configFormatError info input pe expected).isSome = true := by
  have hfetch : fetchLine input pe.line = "" := by
    unfold fetchLine
    rw [List.get?_eq_none.mpr (by omega)]
  refine ⟨hfetch, ?_, ?_⟩
  · unfold preprocessFormatError
    rw [hfetch]
  · have hres := resolveOrigin_isSome info.line_origins pe.line ht hL
    unfold configFormatError
    obtain ⟨v, hv⟩ := Option.isSome_iff_exists.mp hres
    rw [hv]
    rfl

/-- Witness for C10 at a concrete input: line 5 of the one-line input
`"a"` with a one-entry origin table. -/
theorem C10_witness :
    fetchLine "a" 5 = "" ∧
    preprocessFormatError Option.none "a" ⟨5, 2⟩ "x"
      = format_parse_error "" (fileOriginStr Option.none) (5 - 1) 2 "x" ∧
    (configFormatError ⟨[(1, Option.none)]⟩ "a" ⟨5, 2⟩ "x").isSome
      = true :=
  C10_line_fallback Option.none ⟨[(1, Option.none)]⟩ "a" ⟨5, 2⟩ "x"
    (by decide) (by decide) (by decide)

end Armake2.Error
